import Mathlib

/-!
Formal model of the RxminderAPP scheduling core.

The embedded code lives in `backend/utils.py` (`daterange`,
`generate_daily_times`) and `backend/main.py` (`create_prescription`,
`update_prescription`, `get_user_reminders`).

Modelling conventions:
* A time-of-day is its number of seconds since midnight (`datetime.time`
  with `hour*3600 + minute*60 + second`), a `Nat`.
* A date is a day number, an `Int`; `timedelta` arithmetic on dates is
  integer arithmetic on day numbers.
* A timestamp (`datetime`) is `86400 * day + secondOfDay`, an `Int`.
  The source stores timestamps as ISO strings and compares them both as
  `datetime` values and lexicographically as strings (SQL `ORDER BY
  reminder_time ASC`); for the fixed-width ISO format both orders agree
  with the numeric order on this encoding.
* Python `float` arithmetic in `generate_daily_times` is modelled by exact
  rational arithmetic (the spec's "real-valued, not truncated before use").
* Database rows carry ids, user ids and messages that never influence the
  scheduling logic; the `Reminder` model below keeps exactly the fields the
  logic reads (`reminder_time`, `status`).
-/

namespace Rxminder

/-- `MAX_TIMES_PER_DAY` from `backend/main.py` (default configuration). -/
def MAX_TIMES_PER_DAY : Int := 50

/-- Python's `%` on floats with a positive right operand, modelled on `ℚ`:
`x % y = x - y * floor (x / y)`. -/
def pymod (x y : ℚ) : ℚ := x - y * (Int.floor (x / y) : ℚ)

/-- `utils.generate_daily_times(frequency, start_time_str)`.

```
if frequency <= 0: return []
start_seconds = st.hour * 3600 + st.minute * 60 + st.second
interval = 86400 / frequency
for k in range(frequency):
    sec = int((start_seconds + k * interval) % 86400)
    times.append(time(hour=sec//3600, minute=(sec%3600)//60, second=sec%60))
```

The parsed anchor is passed as its second count `start_seconds`; the
`time(hour, minute, second)` value built from `sec < 86400` is represented
by `sec` itself.  `int(...)` on the nonnegative float is `Int.floor`. -/
def generate_daily_times (frequency : Int) (start_seconds : Nat) : List Nat :=
  if frequency ≤ 0 then []
  else
    (List.range frequency.toNat).map (fun (k : ℕ) =>
      (Int.floor (pymod ((start_seconds : ℚ) + (k : ℚ) * ((86400 : ℚ) / (frequency : ℚ)))
        86400)).toNat)

/-- `utils.daterange(start, end)`: every date from `start` to `end`
inclusive, via `range((end - start).days + 1)`.  Python's `range` of a
nonpositive number is empty, which `Int.toNat` captures. -/
def daterange (start «end» : Int) : List Int :=
  (List.range ((«end» - start + 1).toNat)).map (fun (n : ℕ) => start + (n : Int))

/-- The reminder-expansion loop of `create_prescription` (and the identical
loop in `update_prescription`): for each day of `daterange`, for each
generated time, emit `datetime.combine(single_date, t)`. -/
def expand_reminders (start_date end_date : Int) (times : List Nat) : List Int :=
  (daterange start_date end_date).flatMap
    (fun d => times.map (fun (t : ℕ) => 86400 * d + (t : Int)))

/-- Python's `min` on a list of timestamps, `none` on the empty list (the
source guards `min` behind a nonemptiness test). -/
def list_min : List Int → Option Int
  | [] => none
  | a :: l =>
    match list_min l with
    | none => some a
    | some b => some (min a b)

/-- `create_prescription` lines 465-473: `next_reminder` is the earliest
generated reminder strictly after `now`, or `None` when there is none. -/
def init_next_reminder (reminder_times : List Int) (now : Int) : Option Int :=
  list_min (reminder_times.filter (fun t => decide (now < t)))

/-- The scheduling core of `create_prescription`: expand the reminders for
the date range and the generated daily times, and initialize
`next_reminder`.  Returns (reminder timestamps, next_reminder). -/
def create_prescription (frequency : Int) (start_seconds : Nat)
    (start_date end_date : Int) (now : Int) : List Int × Option Int :=
  let times := generate_daily_times frequency start_seconds
  let rems := expand_reminders start_date end_date times
  (rems, init_next_reminder rems now)

/-- The Pydantic `PrescriptionCreate` validators that constrain the fields
used by the scheduling core: `frequency` must be positive and at most
`MAX_TIMES_PER_DAY`, and `start_date` must not be in the past.  No
validator of `PrescriptionCreate`, and no code in `create_prescription`,
ever compares `end_date` with `start_date`. -/
def validate_prescription_create (frequency : Int) (start_date today : Int) :
    Except String Unit :=
  if frequency ≤ 0 then .error "frequency must be > 0"
  else if MAX_TIMES_PER_DAY < frequency then .error "frequency must be <= MAX_TIMES_PER_DAY"
  else if start_date < today then .error "start_date cannot be in the past"
  else .ok ()

/-- The `POST /prescriptions` pipeline: request validation, then the
schedule/reminder creation of `create_prescription`. -/
def create_prescription_endpoint (frequency : Int) (start_seconds : Nat)
    (start_date end_date today now : Int) : Except String (List Int × Option Int) :=
  match validate_prescription_create frequency start_date today with
  | .error e => .error e
  | .ok _ => .ok (create_prescription frequency start_seconds start_date end_date now)

/-- The schedule-replacing part of `update_prescription` (`PUT
/prescriptions/{med_id}`), after field fallbacks are resolved:

```
if end_date_obj < start_date_obj:
    raise HTTPException(400, "end_date must be >= start_date")
frequency = ...
if frequency <= 0:
    raise HTTPException(400, "frequency must be > 0")
... generate times, expand reminders, compute next_reminder ...
```
-/
def update_prescription_endpoint (frequency : Int) (start_seconds : Nat)
    (start_date end_date : Int) (now : Int) : Except String (List Int × Option Int) :=
  if end_date < start_date then .error "end_date must be >= start_date"
  else if frequency ≤ 0 then .error "frequency must be > 0"
  else .ok (create_prescription frequency start_seconds start_date end_date now)

/-- Reminder `status` column values the cursor logic reads and writes. -/
inductive ReminderStatus
  | pending
  | scheduled
deriving DecidableEq, Repr

/-- A row of the `reminders` table, restricted to the columns the cursor
logic reads (`reminder_time`, `status`). -/
structure Reminder where
  reminder_time : Int
  status : ReminderStatus
deriving DecidableEq, Repr

/-- One schedule's mutable state: its reminder rows (in insertion order)
and its `next_reminder` pointer. -/
structure ScheduleState where
  reminders : List Reminder
  next_reminder : Option Int
deriving DecidableEq, Repr

/-- `get_user_reminders` lines 672-680: the first reminder row whose
`reminder_time` equals the pointer is marked `'scheduled'`; if no row
matches, nothing is changed. -/
def markFirst (t : Int) : List Reminder → List Reminder
  | [] => []
  | r :: rs =>
    if r.reminder_time = t then { r with status := .scheduled } :: rs
    else r :: markFirst t rs

/-- The timestamps of the rows with `status='pending'`, in row order. -/
def pendingTimes (rs : List Reminder) : List Int :=
  (rs.filter (fun r => decide (r.status = .pending))).map Reminder.reminder_time

/-- `get_user_reminders` lines 682-691: the earliest pending reminder
(`ORDER BY reminder_time ASC` + `.first()`), or `None`. -/
def nextPendingTime (rs : List Reminder) : Option Int :=
  list_min (pendingTimes rs)

/-- One consume-and-advance step of `get_user_reminders` for a single
schedule: skip when `next_reminder` is absent; otherwise emit the pointer
value, mark the matching reminder `'scheduled'`, and recompute the pointer
from the rows still pending.  Returns the new state and the emitted
timestamp. -/
def consumeStep (s : ScheduleState) : ScheduleState × Option Int :=
  match s.next_reminder with
  | none => (s, none)
  | some t =>
    let rs := markFirst t s.reminders
    ({ reminders := rs, next_reminder := nextPendingTime rs }, some t)

/-- `n` successive `GET /reminders` invocations for one schedule, collecting
the emitted timestamps in order. -/
def consumeIter : Nat → ScheduleState → ScheduleState × List Int
  | 0, s => (s, [])
  | n + 1, s =>
    let step := consumeStep s
    let rest := consumeIter n step.1
    (rest.1, step.2.toList ++ rest.2)

/-! ### Arithmetic characterization of `generate_daily_times` -/

/-- The `k`-th generated point, computed exactly over `ℕ`:
`⌊(s + k * (86400 / F)) mod 86400⌋ = ((s*F + 86400*k) mod (86400*F)) / F`. -/
theorem generate_point_eq (F s k : ℕ) (hF : 0 < F) :
    (Int.floor (pymod ((s : ℚ) + (k : ℚ) * ((86400 : ℚ) / (F : ℚ))) 86400)).toNat
      = (s * F + 86400 * k) % (86400 * F) / F := by
  have hFQ : (F : ℚ) ≠ 0 := Nat.cast_ne_zero.mpr hF.ne'
  set N : ℕ := s * F + 86400 * k with hN
  have hx : (s : ℚ) + (k : ℚ) * ((86400 : ℚ) / (F : ℚ)) = (N : ℚ) / (F : ℚ) := by
    rw [hN]
    push_cast
    field_simp
    ring
  have hdd : (N : ℚ) / (F : ℚ) / (86400 : ℚ) = (N : ℚ) / ((86400 * F : ℕ) : ℚ) := by
    rw [div_div]
    push_cast
    ring_nf
  have hfloor1 : Int.floor ((N : ℚ) / (F : ℚ) / (86400 : ℚ)) = ((N / (86400 * F) : ℕ) : ℤ) := by
    rw [hdd, Rat.floor_natCast_div_natCast]
    norm_cast
  have hsplit : N = 86400 * F * (N / (86400 * F)) + N % (86400 * F) := (Nat.div_add_mod _ _).symm
  have hmod : pymod ((N : ℚ) / (F : ℚ)) 86400 = ((N % (86400 * F) : ℕ) : ℚ) / (F : ℚ) := by
    unfold pymod
    rw [hfloor1]
    have hNQ : (N : ℚ) = 86400 * (F : ℚ) * ((N / (86400 * F) : ℕ) : ℚ)
        + ((N % (86400 * F) : ℕ) : ℚ) := by
      exact_mod_cast congrArg (fun m : ℕ => (m : ℚ)) hsplit
    have hcast2 : ((((N / (86400 * F) : ℕ) : ℤ)) : ℚ) = ((N / (86400 * F) : ℕ) : ℚ) :=
      Int.cast_natCast _
    rw [hcast2, hNQ]
    field_simp
    ring
  have hdivcast : ((N % (86400 * F) : ℕ) : ℤ) / ((F : ℕ) : ℤ)
      = ((N % (86400 * F) / F : ℕ) : ℤ) := by norm_cast
  rw [hx, hmod, Rat.floor_natCast_div_natCast, hdivcast, Int.toNat_natCast]

/-- `generate_daily_times` computed entirely in `ℕ`. -/
theorem generate_daily_times_eq (F : Int) (s : Nat) (hF : 0 < F) :
    generate_daily_times F s
      = (List.range F.toNat).map
          (fun k => (s * F.toNat + 86400 * k) % (86400 * F.toNat) / F.toNat) := by
  unfold generate_daily_times
  rw [if_neg (not_le.mpr hF)]
  refine List.map_congr_left (fun k _ => ?_)
  have hcast : ((F.toNat : ℕ) : ℚ) = (F : ℚ) := by
    rw [show ((F.toNat : ℕ) : ℚ) = ((F.toNat : ℤ) : ℚ) by push_cast; ring,
      Int.toNat_of_nonneg hF.le]
  rw [← hcast]
  exact generate_point_eq F.toNat s k (by omega)

/-- Element-level version of `generate_daily_times_eq`. -/
theorem generate_daily_times_getElem (F : Int) (s : Nat) (hF : 0 < F)
    (k : Nat) (hk : k < F.toNat) :
    (generate_daily_times F s)[k]?
      = some ((s * F.toNat + 86400 * k) % (86400 * F.toNat) / F.toNat) := by
  rw [generate_daily_times_eq F s hF, List.getElem?_map, List.getElem?_range hk]
  rfl

theorem generate_daily_times_length (F : Int) (s : Nat) (hF : 0 < F) :
    (generate_daily_times F s).length = F.toNat := by
  unfold generate_daily_times
  rw [if_neg (not_le.mpr hF)]
  simp

/-! ### `list_min` -/

theorem list_min_eq_none {l : List Int} : list_min l = none ↔ l = [] := by
  induction l with
  | nil => simp [list_min]
  | cons a l _ =>
    cases h : list_min l <;> simp [list_min, h]

theorem list_min_mem {l : List Int} {m : Int} (h : list_min l = some m) : m ∈ l := by
  induction l generalizing m with
  | nil => simp [list_min] at h
  | cons a l ih =>
    cases hl : list_min l with
    | none =>
      rw [list_min, hl] at h
      simp only [Option.some.injEq] at h
      simp [← h]
    | some b =>
      rw [list_min, hl] at h
      simp only [Option.some.injEq] at h
      rcases min_cases a b with ⟨hm, _⟩ | ⟨hm, _⟩
      · simp [← h, hm]
      · right
        rw [← h, hm]
        exact ih hl

theorem list_min_le {l : List Int} {m : Int} (h : list_min l = some m) :
    ∀ x ∈ l, m ≤ x := by
  induction l generalizing m with
  | nil => simp
  | cons a l ih =>
    intro x hx
    cases hl : list_min l with
    | none =>
      rw [list_min, hl] at h
      simp only [Option.some.injEq] at h
      rcases List.mem_cons.mp hx with rfl | hx
      · omega
      · exact absurd (List.ne_nil_of_mem hx) (by simpa using list_min_eq_none.mp hl)
    | some b =>
      rw [list_min, hl] at h
      simp only [Option.some.injEq] at h
      rcases List.mem_cons.mp hx with rfl | hx
      · omega
      · have := ih hl x hx
        omega

theorem list_min_eq_some_iff {l : List Int} {m : Int} :
    list_min l = some m ↔ m ∈ l ∧ ∀ x ∈ l, m ≤ x := by
  constructor
  · exact fun h => ⟨list_min_mem h, list_min_le h⟩
  · rintro ⟨hmem, hle⟩
    cases h : list_min l with
    | none =>
      exact absurd (List.ne_nil_of_mem hmem) (by simpa using list_min_eq_none.mp h)
    | some b =>
      have h1 : b ≤ m := list_min_le h m hmem
      have h2 : m ≤ b := hle b (list_min_mem h)
      rw [le_antisymm h1 h2]

/-! ### Cursor lemmas -/

theorem pendingTimes_cons (r : Reminder) (rs : List Reminder) :
    pendingTimes (r :: rs)
      = if r.status = .pending then r.reminder_time :: pendingTimes rs else pendingTimes rs := by
  by_cases h : r.status = ReminderStatus.pending <;>
    simp [pendingTimes, List.filter_cons, h]

theorem markFirst_map_time (t : Int) (rs : List Reminder) :
    (markFirst t rs).map Reminder.reminder_time = rs.map Reminder.reminder_time := by
  induction rs with
  | nil => rfl
  | cons r rs ih =>
    by_cases h : r.reminder_time = t <;> simp [markFirst, h, ih]

theorem markFirst_noop (t : Int) (rs : List Reminder)
    (h : t ∉ rs.map Reminder.reminder_time) : markFirst t rs = rs := by
  induction rs with
  | nil => rfl
  | cons r rs ih =>
    simp only [List.map_cons, List.mem_cons] at h
    push_neg at h
    rw [markFirst, if_neg (fun he => h.1 he.symm), ih h.2]

theorem pendingTimes_sublist (rs : List Reminder) :
    (pendingTimes rs).Sublist (rs.map Reminder.reminder_time) :=
  (List.filter_sublist rs).map Reminder.reminder_time

theorem pendingTimes_nodup {rs : List Reminder}
    (hnd : (rs.map Reminder.reminder_time).Nodup) : (pendingTimes rs).Nodup :=
  (pendingTimes_sublist rs).nodup hnd

theorem pendingTimes_markFirst {t : Int} {rs : List Reminder}
    (hnd : (rs.map Reminder.reminder_time).Nodup) (ht : t ∈ pendingTimes rs) :
    pendingTimes (markFirst t rs) = (pendingTimes rs).erase t := by
  induction rs with
  | nil => simp [pendingTimes] at ht
  | cons r rs ih =>
    simp only [List.map_cons, List.nodup_cons] at hnd
    by_cases hteq : r.reminder_time = t
    · by_cases hp : r.status = ReminderStatus.pending
      · rw [markFirst, if_pos hteq, pendingTimes_cons, pendingTimes_cons, if_pos hp]
        rw [show ({ r with status := ReminderStatus.scheduled } : Reminder).status
            = ReminderStatus.scheduled from rfl]
        rw [if_neg (by simp), hteq, List.erase_cons_head]
      · rw [pendingTimes_cons, if_neg hp] at ht
        have hsub : t ∈ rs.map Reminder.reminder_time := (pendingTimes_sublist rs).subset ht
        exact absurd (hteq ▸ hsub) hnd.1
    · by_cases hp : r.status = ReminderStatus.pending
      · have ht' : t ∈ pendingTimes rs := by
          rw [pendingTimes_cons, if_pos hp] at ht
          rcases List.mem_cons.mp ht with h | h
          · exact absurd h.symm hteq
          · exact h
        rw [markFirst, if_neg hteq, pendingTimes_cons, if_pos hp,
          pendingTimes_cons, if_pos hp, ih hnd.2 ht',
          List.erase_cons_tail (by simp [hteq])]
      · have ht' : t ∈ pendingTimes rs := by
          rw [pendingTimes_cons, if_neg hp] at ht
          exact ht
        rw [markFirst, if_neg hteq, pendingTimes_cons, if_neg hp,
          pendingTimes_cons, if_neg hp]
        exact ih hnd.2 ht'

theorem consume_invariant (n : Nat) (rs : List Reminder)
    (hnd : (rs.map Reminder.reminder_time).Nodup)
    (hlen : (pendingTimes rs).length = n) :
    pendingTimes (consumeIter n ⟨rs, nextPendingTime rs⟩).1.reminders = []
      ∧ (consumeIter n ⟨rs, nextPendingTime rs⟩).1.next_reminder = none
      ∧ (consumeIter n ⟨rs, nextPendingTime rs⟩).2.length = n
      ∧ (consumeIter n ⟨rs, nextPendingTime rs⟩).2.Pairwise (· < ·)
      ∧ ∀ x ∈ (consumeIter n ⟨rs, nextPendingTime rs⟩).2, x ∈ pendingTimes rs := by
  induction n generalizing rs with
  | zero =>
    have hnil : pendingTimes rs = [] := List.length_eq_zero.mp hlen
    have hnext : nextPendingTime rs = none := by
      rw [nextPendingTime, hnil]
      rfl
    simp [consumeIter, hnext, hnil]
  | succ n ih =>
    have hne : pendingTimes rs ≠ [] := by
      intro h
      rw [h] at hlen
      simp at hlen
    obtain ⟨m, hm⟩ : ∃ m, list_min (pendingTimes rs) = some m := by
      cases h : list_min (pendingTimes rs) with
      | none => exact absurd (list_min_eq_none.mp h) hne
      | some b => exact ⟨b, rfl⟩
    have hmmem : m ∈ pendingTimes rs := list_min_mem hm
    have hmle : ∀ x ∈ pendingTimes rs, m ≤ x := list_min_le hm
    have hpnd : (pendingTimes rs).Nodup := pendingTimes_nodup hnd
    set rs' := markFirst m rs with hrs'
    have hmark : pendingTimes rs' = (pendingTimes rs).erase m :=
      pendingTimes_markFirst hnd hmmem
    have hnd' : (rs'.map Reminder.reminder_time).Nodup := by
      rw [hrs', markFirst_map_time]
      exact hnd
    have hlen' : (pendingTimes rs').length = n := by
      rw [hmark]
      have := List.length_erase_add_one hmmem
      omega
    have hstep : consumeIter (n + 1) ⟨rs, nextPendingTime rs⟩
        = ((consumeIter n ⟨rs', nextPendingTime rs'⟩).1,
           m :: (consumeIter n ⟨rs', nextPendingTime rs'⟩).2) := by
      show (let step := consumeStep ⟨rs, nextPendingTime rs⟩;
        let rest := consumeIter n step.1;
        (rest.1, step.2.toList ++ rest.2)) = _
      have : consumeStep ⟨rs, nextPendingTime rs⟩
          = (⟨rs', nextPendingTime rs'⟩, some m) := by
        rw [consumeStep]
        simp only [nextPendingTime, hm]
      rw [this]
      simp
    obtain ⟨ih1, ih2, ih3, ih4, ih5⟩ := ih rs' hnd' hlen'
    have herasemem : ∀ x ∈ pendingTimes rs', m < x := by
      intro x hx
      rw [hmark] at hx
      have := (hpnd.mem_erase_iff).mp hx
      exact lt_of_le_of_ne (hmle x this.2) (Ne.symm this.1)
    refine ⟨by rw [hstep]; exact ih1, by rw [hstep]; exact ih2, ?_, ?_, ?_⟩
    · rw [hstep]
      simpa using ih3
    · rw [hstep]
      exact List.pairwise_cons.mpr ⟨fun x hx => herasemem x (ih5 x hx), ih4⟩
    · rw [hstep]
      intro x hx
      rcases List.mem_cons.mp hx with rfl | hx
      · exact hmmem
      · have := ih5 x hx
        rw [hmark] at this
        exact List.erase_subset _ _ this

/-! ### Expansion lemmas -/

theorem length_flatMap_map {α β γ : Type} (l : List α) (ts : List β) (f : α → β → γ) :
    (l.flatMap (fun d => ts.map (f d))).length = l.length * ts.length := by
  induction l with
  | nil => simp
  | cons a l ih =>
    simp only [List.flatMap_cons, List.length_append, List.length_map, List.length_cons, ih]
    ring

theorem daterange_length (sd ed : Int) : (daterange sd ed).length = (ed - sd + 1).toNat := by
  simp [daterange]

theorem flatMap_const_nil {α β : Type} (l : List α) :
    (l.flatMap (fun _ => ([] : List β))) = [] := by
  induction l <;> simp_all

theorem mem_daterange {sd ed d : Int} (hle : sd ≤ ed) :
    d ∈ daterange sd ed ↔ sd ≤ d ∧ d ≤ ed := by
  unfold daterange
  simp only [List.mem_map, List.mem_range]
  constructor
  · rintro ⟨n, hn, rfl⟩
    omega
  · rintro ⟨h1, h2⟩
    exact ⟨(d - sd).toNat, by omega, by omega⟩

/-! ### The claims -/

/-- C1: for every `start_date ≤ end_date` and positive frequency within the
configured maximum, schedule creation produces exactly
`(end_date - start_date + 1) * frequency` occurrences, and the occurrence
set is the full cross product of the dates in the inclusive range with the
generated time points. -/
theorem claim1_expand_count (sd ed f : Int) (a : Nat)
    (h1 : sd ≤ ed) (h2 : 0 < f) (h3 : f ≤ MAX_TIMES_PER_DAY) :
    (expand_reminders sd ed (generate_daily_times f a)).length = (ed - sd + 1).toNat * f.toNat
    ∧ ∀ x : Int, x ∈ expand_reminders sd ed (generate_daily_times f a) ↔
        ∃ d, sd ≤ d ∧ d ≤ ed
          ∧ ∃ t : ℕ, t ∈ generate_daily_times f a ∧ x = 86400 * d + (t : Int) := by
  constructor
  · unfold expand_reminders
    rw [length_flatMap_map, daterange_length, generate_daily_times_length _ _ h2]
  · intro x
    unfold expand_reminders
    rw [List.mem_flatMap]
    constructor
    · rintro ⟨d, hd, hx⟩
      rw [List.mem_map] at hx
      obtain ⟨t, ht, rfl⟩ := hx
      have hdd := (mem_daterange h1).mp hd
      exact ⟨d, hdd.1, hdd.2, t, ht, rfl⟩
    · rintro ⟨d, hd1, hd2, t, ht, rfl⟩
      exact ⟨d, (mem_daterange h1).mpr ⟨hd1, hd2⟩, List.mem_map.mpr ⟨t, ht, rfl⟩⟩

/-- C1 witness: two days at frequency 2 yield 4 occurrences. -/
theorem claim1_expand_count_witness :
    (expand_reminders 0 1 (generate_daily_times 2 28800)).length = 4 :=
  ((claim1_expand_count 0 1 2 28800 (by norm_num) (by norm_num)
    (by rw [MAX_TIMES_PER_DAY]; norm_num)).1).trans (by decide)

/-- C2 (counterexample): with frequency 3 anchored at 08:00 the generated
times wrap past midnight (`[08:00, 16:00, 00:00]`), so the expanded
occurrence sequence of even a single-day schedule is not ordered by
time-of-day and not strictly increasing. -/
theorem claim2_order_counterexample :
    ¬ (expand_reminders 0 0 (generate_daily_times 3 28800)).Pairwise (· < ·) := by
  have hg : generate_daily_times 3 28800 = [28800, 57600, 0] := by
    rw [generate_daily_times_eq 3 28800 (by norm_num)]
    decide
  rw [hg]
  decide

/-- C2 (amended): the expansion emits occurrences date-major in the
generator's emission order; whenever the time-point list is strictly
increasing (no wrap past midnight) and within the day, the occurrence
sequence is strictly increasing chronologically and duplicate-free. -/
theorem claim2_expand_sorted (sd ed : Int) (times : List Nat)
    (hs : times.Pairwise (· < ·)) (hb : ∀ t ∈ times, t < 86400) :
    (expand_reminders sd ed times).Pairwise (· < ·)
    ∧ (expand_reminders sd ed times).Nodup := by
  have hpair : (expand_reminders sd ed times).Pairwise (· < ·) := by
    unfold expand_reminders
    rw [List.flatMap_def, List.pairwise_flatten]
    constructor
    · intro l hl
      rw [List.mem_map] at hl
      obtain ⟨d, _, rfl⟩ := hl
      rw [List.pairwise_map]
      exact hs.imp (fun h => by omega)
    · rw [List.pairwise_map]
      have hdr : (daterange sd ed).Pairwise (· < ·) := by
        unfold daterange
        rw [List.pairwise_map]
        exact (List.pairwise_lt_range _).imp (fun h => by omega)
      refine hdr.imp ?_
      intro d d' hdd x hx y hy
      rw [List.mem_map] at hx hy
      obtain ⟨t, ht, rfl⟩ := hx
      obtain ⟨t', ht', rfl⟩ := hy
      have h1 := hb t ht
      omega
  exact ⟨hpair, hpair.imp ne_of_lt⟩

/-- C2 witness: a non-wrapping generated list (frequency 2, anchor 08:00)
over two days expands to a strictly increasing, duplicate-free sequence. -/
theorem claim2_expand_sorted_witness :
    (expand_reminders 0 1 [28800, 72000]).Pairwise (· < ·)
    ∧ (expand_reminders 0 1 [28800, 72000]).Nodup :=
  claim2_expand_sorted 0 1 [28800, 72000] (by decide) (by decide)

/-- C10: for every nonpositive frequency the daily time generator returns
the empty list (it never fails), so a schedule built from it has zero
occurrences and an absent `next_reminder` rather than an error. -/
theorem claim10_nonpos_frequency (F : Int) (hF : F ≤ 0) (sd ed now : Int) (a : Nat) :
    generate_daily_times F a = []
    ∧ expand_reminders sd ed (generate_daily_times F a) = []
    ∧ create_prescription F a sd ed now = ([], none) := by
  have h1 : generate_daily_times F a = [] := by
    rw [generate_daily_times, if_pos hF]
  refine ⟨h1, ?_, ?_⟩
  · simp [expand_reminders, h1]
  · simp [create_prescription, expand_reminders, h1, init_next_reminder, list_min,
      flatMap_const_nil]

/-- C3 (counterexample): a schedule holding pending occurrences at 0 and
100 whose pointer was initialized at `now = 50` (so `next_reminder = 100`,
the earliest occurrence strictly after now) consumes 100 first and 0
second: exactly `K = 2` invocations, but the consumed timestamps are not
strictly increasing. -/
theorem claim3_monotone_counterexample :
    (consumeIter 2 ⟨[⟨0, .pending⟩, ⟨100, .pending⟩], init_next_reminder [0, 100] 50⟩).2
        = [100, 0]
    ∧ ¬ ((consumeIter 2
        ⟨[⟨0, .pending⟩, ⟨100, .pending⟩], init_next_reminder [0, 100] 50⟩).2.Pairwise
          (· < ·)) := by
  constructor <;> decide

/-- C3 (amended): on a schedule with `K` pending occurrences, distinct
timestamps, and `next_reminder` equal to the earliest pending timestamp
(as holds after any advance step, but not necessarily right after
initialization, whose strictly-after-now filter can skip already-due
pending occurrences), `K` consume-and-advance invocations terminate with
`next_reminder` absent, nothing pending, a further invocation a no-op, and
the consumed timestamps strictly increasing.  Starting instead from the
initialization pointer, the first consumed timestamp may exceed later
ones. -/
theorem claim3_consume_terminates (rs : List Reminder)
    (hnd : (rs.map Reminder.reminder_time).Nodup) :
    pendingTimes (consumeIter (pendingTimes rs).length
        ⟨rs, nextPendingTime rs⟩).1.reminders = []
    ∧ (consumeIter (pendingTimes rs).length ⟨rs, nextPendingTime rs⟩).1.next_reminder = none
    ∧ (consumeIter (pendingTimes rs).length ⟨rs, nextPendingTime rs⟩).2.length
        = (pendingTimes rs).length
    ∧ (consumeIter (pendingTimes rs).length ⟨rs, nextPendingTime rs⟩).2.Pairwise (· < ·)
    ∧ consumeStep (consumeIter (pendingTimes rs).length ⟨rs, nextPendingTime rs⟩).1
        = ((consumeIter (pendingTimes rs).length ⟨rs, nextPendingTime rs⟩).1, none) := by
  obtain ⟨h1, h2, h3, h4, _⟩ :=
    consume_invariant (pendingTimes rs).length rs hnd rfl
  refine ⟨h1, h2, h3, h4, ?_⟩
  simp [consumeStep, h2]

/-- C3 witness: both pending occurrences of a two-element schedule are
consumed in two invocations, in increasing order, ending with an absent
pointer. -/
theorem claim3_consume_terminates_witness :
    pendingTimes (consumeIter
        (pendingTimes [⟨0, .pending⟩, ⟨100, .pending⟩]).length
        ⟨[⟨0, .pending⟩, ⟨100, .pending⟩],
          nextPendingTime [⟨0, .pending⟩, ⟨100, .pending⟩]⟩).1.reminders = []
    ∧ (consumeIter (pendingTimes [⟨0, .pending⟩, ⟨100, .pending⟩]).length
        ⟨[⟨0, .pending⟩, ⟨100, .pending⟩],
          nextPendingTime [⟨0, .pending⟩, ⟨100, .pending⟩]⟩).1.next_reminder = none
    ∧ (consumeIter (pendingTimes [⟨0, .pending⟩, ⟨100, .pending⟩]).length
        ⟨[⟨0, .pending⟩, ⟨100, .pending⟩],
          nextPendingTime [⟨0, .pending⟩, ⟨100, .pending⟩]⟩).2.length
        = (pendingTimes [⟨0, .pending⟩, ⟨100, .pending⟩]).length
    ∧ (consumeIter (pendingTimes [⟨0, .pending⟩, ⟨100, .pending⟩]).length
        ⟨[⟨0, .pending⟩, ⟨100, .pending⟩],
          nextPendingTime [⟨0, .pending⟩, ⟨100, .pending⟩]⟩).2.Pairwise (· < ·)
    ∧ consumeStep (consumeIter (pendingTimes [⟨0, .pending⟩, ⟨100, .pending⟩]).length
        ⟨[⟨0, .pending⟩, ⟨100, .pending⟩],
          nextPendingTime [⟨0, .pending⟩, ⟨100, .pending⟩]⟩).1
        = ((consumeIter (pendingTimes [⟨0, .pending⟩, ⟨100, .pending⟩]).length
        ⟨[⟨0, .pending⟩, ⟨100, .pending⟩],
          nextPendingTime [⟨0, .pending⟩, ⟨100, .pending⟩]⟩).1, none) :=
  claim3_consume_terminates [⟨0, .pending⟩, ⟨100, .pending⟩] (by decide)

/-- C4: a consume-and-advance step on a schedule whose pointer holds a
pending occurrence's timestamp marks that occurrence as no longer pending
and recomputes `next_reminder` as the minimum timestamp among the
occurrences still pending — applying no strictly-greater-than-now filter,
so already-due pending occurrences are eligible — or absent when none
remain. -/
theorem claim4_consume_step (rs : List Reminder) (t : Int)
    (hnd : (rs.map Reminder.reminder_time).Nodup) (ht : t ∈ pendingTimes rs) :
    t ∉ pendingTimes (consumeStep ⟨rs, some t⟩).1.reminders
    ∧ (∀ m : Int, (consumeStep ⟨rs, some t⟩).1.next_reminder = some m ↔
        (m ∈ pendingTimes (consumeStep ⟨rs, some t⟩).1.reminders
          ∧ ∀ x ∈ pendingTimes (consumeStep ⟨rs, some t⟩).1.reminders, m ≤ x))
    ∧ ((consumeStep ⟨rs, some t⟩).1.next_reminder = none ↔
        pendingTimes (consumeStep ⟨rs, some t⟩).1.reminders = [])
    ∧ (consumeStep ⟨rs, some t⟩).2 = some t := by
  have hred : consumeStep ⟨rs, some t⟩
      = (⟨markFirst t rs, nextPendingTime (markFirst t rs)⟩, some t) := rfl
  rw [hred]
  dsimp only
  have hmark := pendingTimes_markFirst hnd ht
  refine ⟨?_, ?_, ?_, rfl⟩
  · rw [hmark]
    intro hmem
    exact ((pendingTimes_nodup hnd).mem_erase_iff.mp hmem).1 rfl
  · intro m
    rw [nextPendingTime, list_min_eq_some_iff]
  · rw [nextPendingTime, list_min_eq_none]

/-- C4 witness: consuming the pending occurrence at 5 of a two-element
schedule leaves 9 pending and moves the pointer to it. -/
theorem claim4_consume_step_witness :
    (5 : Int) ∉ pendingTimes (consumeStep ⟨[⟨5, .pending⟩, ⟨9, .pending⟩], some 5⟩).1.reminders
    ∧ (consumeStep ⟨[⟨5, .pending⟩, ⟨9, .pending⟩], some 5⟩).1.next_reminder = some 9
    ∧ (consumeStep ⟨[⟨5, .pending⟩, ⟨9, .pending⟩], some 5⟩).2 = some 5 := by
  obtain ⟨h1, h2, _, h4⟩ :=
    claim4_consume_step [⟨5, .pending⟩, ⟨9, .pending⟩] 5 (by decide) (by decide)
  exact ⟨h1, (h2 9).mpr (by decide), h4⟩

/-- C9: when no occurrence matches the pointer's timestamp, the
consume-and-advance step does not fail: the occurrence rows are unchanged,
`next_reminder` is still recomputed from the remaining pending
occurrences, and the step returns normally. -/
theorem claim9_missing_occurrence (rs : List Reminder) (t : Int)
    (h : t ∉ rs.map Reminder.reminder_time) :
    consumeStep ⟨rs, some t⟩ = (⟨rs, nextPendingTime rs⟩, some t) := by
  have hred : consumeStep ⟨rs, some t⟩
      = (⟨markFirst t rs, nextPendingTime (markFirst t rs)⟩, some t) := rfl
  rw [hred, markFirst_noop t rs h]

/-- C9 witness: a pointer at 99 with no matching occurrence leaves the
single pending occurrence at 5 untouched and recomputes the pointer to
it. -/
theorem claim9_missing_occurrence_witness :
    consumeStep ⟨[⟨5, .pending⟩], some 99⟩ = (⟨[⟨5, .pending⟩], some 5⟩, some 99) := by
  rw [claim9_missing_occurrence [⟨5, .pending⟩] 99 (by decide)]
  decide

/-- C5: on schedule creation `next_reminder` is the minimum generated
occurrence timestamp strictly greater than now, and absent when there is
none — in particular for a schedule entirely in the past or with zero
occurrences. -/
theorem claim5_init_next (f : Int) (a : Nat) (sd ed now : Int) :
    (create_prescription f a sd ed now).2
        = init_next_reminder (expand_reminders sd ed (generate_daily_times f a)) now
    ∧ (∀ m : Int, (create_prescription f a sd ed now).2 = some m ↔
        (m ∈ expand_reminders sd ed (generate_daily_times f a) ∧ now < m
          ∧ ∀ x ∈ expand_reminders sd ed (generate_daily_times f a), now < x → m ≤ x))
    ∧ ((∀ x ∈ expand_reminders sd ed (generate_daily_times f a), x ≤ now) →
        (create_prescription f a sd ed now).2 = none)
    ∧ (expand_reminders sd ed (generate_daily_times f a) = [] →
        (create_prescription f a sd ed now).2 = none) := by
  set rems := expand_reminders sd ed (generate_daily_times f a) with hrems
  have h0 : (create_prescription f a sd ed now).2 = init_next_reminder rems now := rfl
  refine ⟨h0, ?_, ?_, ?_⟩
  · intro m
    rw [h0, init_next_reminder, list_min_eq_some_iff]
    constructor
    · rintro ⟨hmem, hle⟩
      rw [List.mem_filter] at hmem
      exact ⟨hmem.1, of_decide_eq_true hmem.2,
        fun x hx hxnow => hle x (List.mem_filter.mpr ⟨hx, decide_eq_true hxnow⟩)⟩
    · rintro ⟨hmem, hnow, hle⟩
      exact ⟨List.mem_filter.mpr ⟨hmem, decide_eq_true hnow⟩,
        fun x hx => hle x (List.mem_filter.mp hx).1
          (of_decide_eq_true (List.mem_filter.mp hx).2)⟩
  · intro hall
    rw [h0, init_next_reminder, list_min_eq_none, List.filter_eq_nil_iff]
    intro x hx
    simpa using not_lt.mpr (hall x hx)
  · intro hnil
    rw [h0, init_next_reminder, hnil]
    rfl

/-- C5 witness: a one-occurrence schedule in the future gets that
occurrence as its initial pointer. -/
theorem claim5_init_next_witness : (create_prescription 1 28800 0 0 0).2 = some 28800 := by
  have hrems : expand_reminders 0 0 (generate_daily_times 1 28800) = [28800] := by
    rw [generate_daily_times_eq 1 28800 (by norm_num)]
    decide
  refine ((claim5_init_next 1 28800 0 0 0).2.1 28800).mpr ?_
  rw [hrems]
  refine ⟨by decide, by decide, ?_⟩
  intro x hx _
  rcases List.mem_singleton.mp hx with rfl
  exact le_refl _

/-- C8 (counterexample): a create request whose `end_date` precedes its
`start_date` passes every `PrescriptionCreate` validation and succeeds
with an empty occurrence set instead of being rejected with a
business-rule error. -/
theorem claim8_create_counterexample :
    create_prescription_endpoint 2 28800 10 5 0 0 = .ok ([], none) := rfl

/-- C8 (amended): `update_prescription` rejects `end_date < start_date`
with a business-rule error before any expansion runs; `create_prescription`
performs no such comparison and proceeds, producing an empty occurrence
set (the date range is empty) and an absent pointer. -/
theorem claim8_end_before_start (f : Int) (a : Nat) (sd ed today now : Int)
    (hlt : ed < sd) (hf : 0 < f) (hmax : f ≤ MAX_TIMES_PER_DAY) (hpast : today ≤ sd) :
    update_prescription_endpoint f a sd ed now = .error "end_date must be >= start_date"
    ∧ create_prescription_endpoint f a sd ed today now = .ok ([], none) := by
  constructor
  · rw [update_prescription_endpoint, if_pos hlt]
  · have hdr : daterange sd ed = [] := by
      rw [daterange, show (ed - sd + 1).toNat = 0 by omega]
      rfl
    rw [create_prescription_endpoint, validate_prescription_create,
      if_neg (not_le.mpr hf), if_neg (not_lt.mpr hmax), if_neg (not_lt.mpr hpast)]
    simp [create_prescription, expand_reminders, hdr, init_next_reminder, list_min]

/-- C8 witness at `start_date = 10 > end_date = 5`. -/
theorem claim8_end_before_start_witness :
    update_prescription_endpoint 1 28800 10 5 0 = .error "end_date must be >= start_date"
    ∧ create_prescription_endpoint 1 28800 10 5 0 0 = .ok ([], none) :=
  claim8_end_before_start 1 28800 10 5 0 0 (by norm_num) (by norm_num)
    (by rw [MAX_TIMES_PER_DAY]; norm_num) (by norm_num)

/-- Injectivity of the generated points: two indices below `F ≤ 86400`
yielding the same truncated point must coincide (any two distinct points
sit at least one interval, hence at least one second, apart on the
24-hour clock). -/
theorem spacing_inj (F s : ℕ) (hF : 0 < F) (hb : F ≤ 86400) {k k' : ℕ}
    (hk : k < F) (hk' : k' < F)
    (heq : (s * F + 86400 * k) % (86400 * F) / F
        = (s * F + 86400 * k') % (86400 * F) / F) :
    k = k' := by
  set M : ℕ := 86400 * F with hM
  set a : ℕ := (s * F + 86400 * k) % M with ha
  set b : ℕ := (s * F + 86400 * k') % M with hb2
  set U : ℕ := (s * F + 86400 * k) / M with hU
  set V : ℕ := (s * F + 86400 * k') / M with hV
  have hka : M * U + a = s * F + 86400 * k := Nat.div_add_mod _ _
  have hkb : M * V + b = s * F + 86400 * k' := Nat.div_add_mod _ _
  have haF : F * (a / F) + a % F = a := Nat.div_add_mod _ _
  have hbF : F * (b / F) + b % F = b := Nat.div_add_mod _ _
  have haFlt : a % F < F := Nat.mod_lt _ hF
  have hbFlt : b % F < F := Nat.mod_lt _ hF
  -- the two points lie in the same block of `F` consecutive values
  have hdiff : (a : ℤ) - b = ((a % F : ℕ) : ℤ) - ((b % F : ℕ) : ℤ) := by
    have e1 : (F : ℤ) * ((a / F : ℕ) : ℤ) + ((a % F : ℕ) : ℤ) = (a : ℤ) := by
      exact_mod_cast haF
    have e2 : (F : ℤ) * ((b / F : ℕ) : ℤ) + ((b % F : ℕ) : ℤ) = (b : ℤ) := by
      exact_mod_cast hbF
    rw [heq] at e1
    linarith
  have habs1 : (a : ℤ) - b < F := by omega
  have habs2 : -(F : ℤ) < (a : ℤ) - b := by omega
  -- the residues differ by `86400 * (k' - k)` modulo `M`
  have hrel : (b : ℤ) - a = 86400 * ((k' : ℤ) - k) + (M : ℤ) * ((U : ℤ) - V) := by
    have c1 : (M : ℤ) * (U : ℤ) + a = (s : ℤ) * F + 86400 * k := by exact_mod_cast hka
    have c2 : (M : ℤ) * (V : ℤ) + b = (s : ℤ) * F + 86400 * k' := by exact_mod_cast hkb
    have hexp : (M : ℤ) * ((U : ℤ) - V) = (M : ℤ) * U - (M : ℤ) * V := by ring
    linarith
  have hMZ : (M : ℤ) = 86400 * (F : ℤ) := by exact_mod_cast hM
  have hkZ : (k : ℤ) < F := by exact_mod_cast hk
  have hkZ' : (k' : ℤ) < F := by exact_mod_cast hk'
  have hFb : (F : ℤ) ≤ 86400 := by exact_mod_cast hb
  have hknn : (0 : ℤ) ≤ k := Int.natCast_nonneg k
  have hknn' : (0 : ℤ) ≤ k' := Int.natCast_nonneg k'
  have hw : (U : ℤ) - V = 0 := by
    by_contra hne
    rcases lt_or_gt_of_ne hne with hneg | hpos
    · -- `U - V ≤ -1`: the difference would be at most `-M + 86400*(F-1) < -F`
      have h1 : (U : ℤ) - V ≤ -1 := by omega
      have h2 : (M : ℤ) * ((U : ℤ) - V) ≤ (M : ℤ) * (-1) :=
        mul_le_mul_of_nonneg_left h1 (by positivity)
      linarith
    · -- `U - V ≥ 1`: the difference would be at least `M - 86400*(F-1) > F`
      have h1 : (1 : ℤ) ≤ (U : ℤ) - V := by omega
      have h2 : (M : ℤ) * 1 ≤ (M : ℤ) * ((U : ℤ) - V) :=
        mul_le_mul_of_nonneg_left h1 (by positivity)
      linarith
  rw [hw, mul_zero, add_zero] at hrel
  omega

/-- C6 (counterexample): called with frequency 86401 (over one point per
second) the generator's integer truncation collides — indices 0 and 1 both
map to second 0 — so the returned values are not all distinct. -/
theorem claim6_distinct_counterexample : ¬ (generate_daily_times 86401 0).Nodup := by
  intro h
  have h0 : (generate_daily_times 86401 0)[0]? = some 0 := by
    rw [generate_daily_times_getElem 86401 0 (by norm_num) 0 (by decide)]
    decide
  have h1 : (generate_daily_times 86401 0)[1]? = some 0 := by
    rw [generate_daily_times_getElem 86401 0 (by norm_num) 1 (by decide)]
    decide
  have hlen : 0 < (generate_daily_times 86401 0).length := by
    rw [generate_daily_times_length _ _ (by norm_num)]
    decide
  have := List.getElem?_inj hlen h (h0.trans h1.symm)
  exact absurd this (by decide)

/-- C6 (amended): for every positive frequency `F ≤ 86400` (in particular
every frequency within the configured maximum of 50) and well-formed
anchor, the generator returns exactly `F` distinct time points, the first
of which is exactly the anchor; at `F = 1` the result is exactly the
anchor alone. -/
theorem claim6_generate_distinct (F : Int) (s : Nat)
    (h : 0 < F) (hb : F ≤ 86400) (hs : s < 86400) :
    (generate_daily_times F s).length = F.toNat
    ∧ (generate_daily_times F s).Nodup
    ∧ (generate_daily_times F s)[0]? = some s
    ∧ (F = 1 → generate_daily_times F s = [s]) := by
  have hF' : 0 < F.toNat := by omega
  have hb' : F.toNat ≤ 86400 := by omega
  have hhead : (generate_daily_times F s)[0]? = some s := by
    rw [generate_daily_times_getElem F s h 0 hF']
    have hlt : s * F.toNat < 86400 * F.toNat := (Nat.mul_lt_mul_right hF').mpr hs
    rw [Nat.mul_zero, Nat.add_zero, Nat.mod_eq_of_lt hlt, Nat.mul_div_cancel _ hF']
  refine ⟨generate_daily_times_length F s h, ?_, hhead, ?_⟩
  · rw [generate_daily_times_eq F s h]
    refine List.Nodup.map_on ?_ (List.nodup_range _)
    intro x hx y hy hxy
    exact spacing_inj F.toNat s hF' hb' (List.mem_range.mp hx) (List.mem_range.mp hy) hxy
  · intro h1
    subst h1
    rw [generate_daily_times_eq 1 s (by norm_num)]
    show (List.range 1).map _ = [s]
    rw [show List.range 1 = [0] from by decide, List.map_singleton]
    congr 1
    rw [show Int.toNat 1 = 1 from rfl, Nat.mul_zero, Nat.add_zero, Nat.mul_one,
      Nat.mod_eq_of_lt (by omega), Nat.div_one]

/-- C6 witness at frequency 3, anchor 08:00. -/
theorem claim6_generate_distinct_witness :
    (generate_daily_times 3 28800).Nodup
    ∧ (generate_daily_times 3 28800)[0]? = some 28800 :=
  ⟨(claim6_generate_distinct 3 28800 (by norm_num) (by norm_num) (by norm_num)).2.1,
   (claim6_generate_distinct 3 28800 (by norm_num) (by norm_num) (by norm_num)).2.2.1⟩

/-- C7: every generated point equals
`(anchor_seconds + k * (86400 / F)) mod 86400` truncated to whole seconds
(exact real-valued interval, truncation last), which evaluates over `ℕ` to
`((s*F + 86400*k) mod (86400*F)) / F` — equal angular spacing of
`86400 / F` seconds around the 24-hour clock. -/
theorem claim7_generate_spacing (F : Int) (s : Nat) (h : 0 < F)
    (k : Nat) (hk : k < F.toNat) :
    (generate_daily_times F s)[k]?
        = some ((Int.floor (pymod ((s : ℚ) + (k : ℚ) * ((86400 : ℚ) / (F : ℚ)))
            86400)).toNat)
    ∧ (generate_daily_times F s)[k]?
        = some ((s * F.toNat + 86400 * k) % (86400 * F.toNat) / F.toNat) := by
  constructor
  · rw [generate_daily_times, if_neg (not_le.mpr h), List.getElem?_map,
      List.getElem?_range hk]
    rfl
  · exact generate_daily_times_getElem F s h k hk

/-- C7 witness: frequency 3 anchored at 08:00 places its third point at
midnight (wrapping the 8-hour interval around the clock). -/
theorem claim7_generate_spacing_witness :
    (generate_daily_times 3 28800)[2]? = some 0 :=
  ((claim7_generate_spacing 3 28800 (by norm_num) 2 (by decide)).2).trans (by decide)

/-- C10 witness at frequency `-3`. -/
theorem claim10_nonpos_frequency_witness :
    generate_daily_times (-3) 28800 = []
    ∧ create_prescription (-3) 28800 0 5 0 = ([], none) :=
  ⟨(claim10_nonpos_frequency (-3) (by norm_num) 0 5 0 28800).1,
   (claim10_nonpos_frequency (-3) (by norm_num) 0 5 0 28800).2.2⟩

end Rxminder
